import Mathlib

/-!
Verification development for the OIDC authentication / role-derivation pipeline
of the `cloud-based-oidc` repository.

The definitions below are a shallow embedding of the TypeScript source:

* `fetchUserRoles` embeds the function of the same name in
  `src/pages/api/auth/[...nextauth].ts` (lines 77-130), together with models of
  the library routines it calls: `String.prototype.split` on a single
  character (`splitChar`), Node's lenient `Buffer.from(_, 'base64')`
  (`b64DecodeChars`: characters outside the alphabet are ignored, decoding
  stops at the first padding character, trailing 6-bit groups shorter than one
  byte are dropped), `Buffer.prototype.toString()` (`utf8Decode`, UTF-8 with
  U+FFFD replacement on invalid sequences), and `JSON.parse` (`jsonParse`, a
  fuel-indexed recursive-descent parser of the JSON grammar; fuel is always
  sufficient because every recursive call consumes fuel linearly bounded by
  the input length).  JavaScript property access `decodedToken.scope`
  (a TypeError on `null`, `undefined` on non-objects) is `jsGetScope`, and
  JavaScript truthiness of the retrieved claim is `jsTruthy`.
* `profileFn` embeds the `profile` function (lines 136-149).
* `jwtCb` and `sessionCb` embed the `jwt` and `session` callbacks
  (lines 178-201).
* `withAuth` embeds the guard of `src/unnamed/part_001` (lines 17-50);
  session resolution (`getSession(context)`) is modelled as an explicit
  `session` field of the request context.
* `hasRole` / `hasAnyRole` embed the capability-gate patterns of
  `src/components/Layout.tsx` (lines 26-27) and the role check inside
  `withAuth` (lines 35-36), over an optional session.
-/

/-- Role record `{ id, name }` as produced by the role mapping. -/
structure Role where
  id : String
  name : String
deriving DecidableEq, Repr

/-- Role pushed for the `admin` scope. -/
def adminRole : Role := ⟨"admin", "admin"⟩

/-- Role pushed for the `staff` scope. -/
def staffRole : Role := ⟨"staff", "staff"⟩

/-- Role pushed for the `appid_manage_roles` scope. -/
def roleManagerRole : Role := ⟨"role_manager", "role_manager"⟩

/-- JavaScript `str.split(sep)` for a one-character separator: empty segments
are kept, `"".split(sep)` is `[""]`. -/
def splitChar (sep : Char) : List Char → List (List Char)
  | [] => [[]]
  | c :: cs =>
    let r := splitChar sep cs
    if c = sep then [] :: r
    else
      match r with
      | h :: t => (c :: h) :: t
      | [] => [[c]]

/-- Value of one base64 alphabet character; Node's `'base64'` decoder accepts
both the standard and the url-safe alphabet. Returns `none` for characters
outside the alphabet (Node ignores those). -/
def b64CharVal (c : Char) : Option Nat :=
  if 65 ≤ c.toNat ∧ c.toNat ≤ 90 then some (c.toNat - 65)
  else if 97 ≤ c.toNat ∧ c.toNat ≤ 122 then some (c.toNat - 97 + 26)
  else if 48 ≤ c.toNat ∧ c.toNat ≤ 57 then some (c.toNat - 48 + 52)
  else if c = '+' ∨ c = '-' then some 62
  else if c = '/' ∨ c = '_' then some 63
  else none

/-- Node's base64 decoder stops consuming input at the first `=` padding
character. -/
def b64TakeUntilPad : List Char → List Char
  | [] => []
  | c :: cs => if c = '=' then [] else c :: b64TakeUntilPad cs

/-- Pack a list of 6-bit values into bytes, groups of four at a time; a
trailing group of two or three values yields one or two bytes, a trailing
single value yields nothing. -/
def b64Pack : List Nat → List Nat
  | a :: b :: c :: d :: rest =>
    (a * 4 + b / 16) :: ((b % 16) * 16 + c / 4) :: ((c % 4) * 64 + d) :: b64Pack rest
  | [a, b] => [a * 4 + b / 16]
  | [a, b, c] => [a * 4 + b / 16, (b % 16) * 16 + c / 4]
  | _ => []

/-- Model of Node `Buffer.from(payload, 'base64')`: lenient decoding that
ignores characters outside the alphabet. -/
def b64DecodeChars (cs : List Char) : List Nat :=
  b64Pack ((b64TakeUntilPad cs).filterMap b64CharVal)

/-- Fuel-indexed UTF-8 decoding of a byte list, invalid sequences producing
the U+FFFD replacement character: model of `Buffer.prototype.toString()`. -/
def utf8DecodeAux : Nat → List Nat → List Char
  | 0, _ => []
  | _, [] => []
  | fuel + 1, b :: rest =>
    if b < 128 then Char.ofNat b :: utf8DecodeAux fuel rest
    else if 194 ≤ b ∧ b ≤ 223 then
      match rest with
      | b2 :: rest2 =>
        if 128 ≤ b2 ∧ b2 ≤ 191 then
          Char.ofNat ((b - 192) * 64 + (b2 - 128)) :: utf8DecodeAux fuel rest2
        else Char.ofNat 65533 :: utf8DecodeAux fuel rest
      | [] => [Char.ofNat 65533]
    else if 224 ≤ b ∧ b ≤ 239 then
      match rest with
      | b2 :: b3 :: rest3 =>
        if 128 ≤ b2 ∧ b2 ≤ 191 ∧ 128 ≤ b3 ∧ b3 ≤ 191 then
          Char.ofNat ((b - 224) * 4096 + (b2 - 128) * 64 + (b3 - 128)) :: utf8DecodeAux fuel rest3
        else Char.ofNat 65533 :: utf8DecodeAux fuel rest
      | _ => [Char.ofNat 65533]
    else if 240 ≤ b ∧ b ≤ 244 then
      match rest with
      | b2 :: b3 :: b4 :: rest4 =>
        if 128 ≤ b2 ∧ b2 ≤ 191 ∧ 128 ≤ b3 ∧ b3 ≤ 191 ∧ 128 ≤ b4 ∧ b4 ≤ 191 then
          Char.ofNat ((b - 240) * 262144 + (b2 - 128) * 4096 + (b3 - 128) * 64 + (b4 - 128))
            :: utf8DecodeAux fuel rest4
        else Char.ofNat 65533 :: utf8DecodeAux fuel rest
      | _ => [Char.ofNat 65533]
    else Char.ofNat 65533 :: utf8DecodeAux fuel rest

/-- UTF-8 decoding with replacement, the fuel instantiated large enough. -/
def utf8Decode (bs : List Nat) : List Char :=
  utf8DecodeAux (bs.length + 1) bs

/-- JSON values as produced by `JSON.parse`.  Numbers keep their source
lexeme: no claim of this development depends on numeric value beyond
zero-ness, which `jsTruthy` reads off the lexeme. -/
inductive Json where
  | null
  | bool (b : Bool)
  | num (lexeme : List Char)
  | str (s : String)
  | arr (items : List Json)
  | obj (fields : List (String × Json))

/-- JSON whitespace. -/
def isJsonWs (c : Char) : Bool :=
  c = ' ' ∨ c = '\t' ∨ c = '\n' ∨ c = '\r'

/-- Skip leading JSON whitespace. -/
def skipWs : List Char → List Char
  | [] => []
  | c :: cs => if isJsonWs c then skipWs cs else c :: cs

/-- Decimal digit test. -/
def isDigitCh (c : Char) : Bool := 48 ≤ c.toNat ∧ c.toNat ≤ 57

/-- Hexadecimal digit value. -/
def hexVal (c : Char) : Option Nat :=
  if 48 ≤ c.toNat ∧ c.toNat ≤ 57 then some (c.toNat - 48)
  else if 97 ≤ c.toNat ∧ c.toNat ≤ 102 then some (c.toNat - 97 + 10)
  else if 65 ≤ c.toNat ∧ c.toNat ≤ 70 then some (c.toNat - 65 + 10)
  else none

/-- Four hex digits of a `\u` escape. -/
def parseHex4 : List Char → Option (Nat × List Char)
  | c1 :: c2 :: c3 :: c4 :: rest =>
    match hexVal c1, hexVal c2, hexVal c3, hexVal c4 with
    | some h1, some h2, some h3, some h4 =>
      some (h1 * 4096 + h2 * 256 + h3 * 16 + h4, rest)
    | _, _, _, _ => none
  | _ => none

/-- Body of a JSON string after the opening quote, with escape handling. -/
def parseStrBody : Nat → List Char → Option (List Char × List Char)
  | 0, _ => none
  | _, [] => none
  | fuel + 1, c :: cs =>
    if c = '"' then some ([], cs)
    else if c = '\\' then
      match cs with
      | [] => none
      | e :: cs2 =>
        if e = '"' then (parseStrBody fuel cs2).map (fun p => ('"' :: p.1, p.2))
        else if e = '\\' then (parseStrBody fuel cs2).map (fun p => ('\\' :: p.1, p.2))
        else if e = '/' then (parseStrBody fuel cs2).map (fun p => ('/' :: p.1, p.2))
        else if e = 'b' then (parseStrBody fuel cs2).map (fun p => (Char.ofNat 8 :: p.1, p.2))
        else if e = 'f' then (parseStrBody fuel cs2).map (fun p => (Char.ofNat 12 :: p.1, p.2))
        else if e = 'n' then (parseStrBody fuel cs2).map (fun p => ('\n' :: p.1, p.2))
        else if e = 'r' then (parseStrBody fuel cs2).map (fun p => ('\r' :: p.1, p.2))
        else if e = 't' then (parseStrBody fuel cs2).map (fun p => ('\t' :: p.1, p.2))
        else if e = 'u' then
          match parseHex4 cs2 with
          | some (n, rest) => (parseStrBody fuel rest).map (fun p => (Char.ofNat n :: p.1, p.2))
          | none => none
        else none
    else if c.toNat < 32 then none
    else (parseStrBody fuel cs).map (fun p => (c :: p.1, p.2))

/-- Take leading decimal digits. -/
def takeDigits : List Char → (List Char × List Char)
  | [] => ([], [])
  | c :: cs =>
    if isDigitCh c then
      let p := takeDigits cs
      (c :: p.1, p.2)
    else ([], c :: cs)

/-- Integer component of a JSON number after the optional sign: a lone `0`,
or a nonzero digit followed by digits. -/
def parseIntComp : List Char → Option (List Char × List Char)
  | [] => none
  | c :: cs =>
    if c = '0' then some ([c], cs)
    else if isDigitCh c then
      let p := takeDigits cs
      some (c :: p.1, p.2)
    else none

/-- Fractional component `.digits`, if present. -/
def parseFracComp : List Char → (List Char × List Char)
  | '.' :: cs =>
    match takeDigits cs with
    | ([], _) => ([], '.' :: cs)
    | (ds, rest) => ('.' :: ds, rest)
  | s => ([], s)

/-- Exponent component `e[+-]digits`, if present. -/
def parseExpComp : List Char → (List Char × List Char)
  | e :: cs =>
    if e = 'e' ∨ e = 'E' then
      match cs with
      | sg :: cs2 =>
        if sg = '+' ∨ sg = '-' then
          match takeDigits cs2 with
          | ([], _) => ([], e :: cs)
          | (ds, rest) => (e :: sg :: ds, rest)
        else
          match takeDigits cs with
          | ([], _) => ([], e :: cs)
          | (ds, rest) => (e :: ds, rest)
      | [] => ([], [e])
    else ([], e :: cs)
  | [] => ([], [])

/-- A JSON number lexeme: optional minus, integer, fraction, exponent. -/
def parseNum : List Char → Option (List Char × List Char)
  | '-' :: cs =>
    match parseIntComp cs with
    | some (ip, r1) =>
      let f := parseFracComp r1
      let e := parseExpComp f.2
      some ('-' :: ip ++ f.1 ++ e.1, e.2)
    | none => none
  | s =>
    match parseIntComp s with
    | some (ip, r1) =>
      let f := parseFracComp r1
      let e := parseExpComp f.2
      some (ip ++ f.1 ++ e.1, e.2)
    | none => none

mutual

/-- Recursive-descent JSON value, at a position where a value must start. -/
def parseVal : Nat → List Char → Option (Json × List Char)
  | 0, _ => none
  | fuel + 1, s =>
    match s with
    | [] => none
    | 't' :: 'r' :: 'u' :: 'e' :: rest => some (Json.bool true, rest)
    | 'f' :: 'a' :: 'l' :: 's' :: 'e' :: rest => some (Json.bool false, rest)
    | 'n' :: 'u' :: 'l' :: 'l' :: rest => some (Json.null, rest)
    | c :: cs =>
      if c = '"' then
        (parseStrBody (cs.length + 1) cs).map (fun p => (Json.str (String.mk p.1), p.2))
      else if c = '{' then
        match skipWs cs with
        | '}' :: rest => some (Json.obj [], rest)
        | s1 => (parseMembers fuel s1).map (fun p => (Json.obj p.1, p.2))
      else if c = '[' then
        match skipWs cs with
        | ']' :: rest => some (Json.arr [], rest)
        | s1 => (parseItems fuel s1).map (fun p => (Json.arr p.1, p.2))
      else
        (parseNum (c :: cs)).map (fun p => (Json.num p.1, p.2))

/-- Members of a JSON object, starting at the first key, consuming the
closing brace. -/
def parseMembers : Nat → List Char → Option (List (String × Json) × List Char)
  | 0, _ => none
  | fuel + 1, s =>
    match s with
    | '"' :: cs =>
      match parseStrBody (cs.length + 1) cs with
      | none => none
      | some (key, r1) =>
        match skipWs r1 with
        | ':' :: r2 =>
          match parseVal fuel (skipWs r2) with
          | none => none
          | some (v, r3) =>
            match skipWs r3 with
            | ',' :: r4 =>
              (parseMembers fuel (skipWs r4)).map
                (fun p => ((String.mk key, v) :: p.1, p.2))
            | '}' :: r4 => some ([(String.mk key, v)], r4)
            | _ => none
        | _ => none
    | _ => none

/-- Items of a JSON array, starting at the first item, consuming the closing
bracket. -/
def parseItems : Nat → List Char → Option (List Json × List Char)
  | 0, _ => none
  | fuel + 1, s =>
    match parseVal fuel s with
    | none => none
    | some (v, r1) =>
      match skipWs r1 with
      | ',' :: r2 => (parseItems fuel (skipWs r2)).map (fun p => (v :: p.1, p.2))
      | ']' :: r2 => some ([v], r2)
      | _ => none

end

/-- Model of `JSON.parse`: parse one value, allow surrounding whitespace,
require the input to be fully consumed; `none` models a thrown SyntaxError. -/
def jsonParse (s : List Char) : Option Json :=
  match parseVal (2 * s.length + 4) (skipWs s) with
  | some (j, rest) => if skipWs rest = [] then some j else none
  | none => none

/-- Last-occurrence lookup in a parsed object's field list: for duplicate
keys `JSON.parse` keeps the later binding. -/
def lookupLast (fields : List (String × Json)) (key : String) : Option Json :=
  match fields with
  | [] => none
  | (k, v) :: rest =>
    match lookupLast rest key with
    | some r => some r
    | none => if k = key then some v else none

/-- JavaScript property access `decodedToken.scope`: a TypeError
(`Except.error`) on `null`, `undefined` (`Except.ok none`) on primitives and
arrays, field lookup on objects. -/
def jsGetScope (j : Json) : Except Unit (Option Json) :=
  match j with
  | Json.null => Except.error ()
  | Json.obj fields => Except.ok (lookupLast fields "scope")
  | _ => Except.ok none

/-- Mantissa digits of a number lexeme: everything before the exponent
marker, signs and the decimal point dropped. -/
def numMantissa : List Char → List Char
  | [] => []
  | c :: cs =>
    if c = 'e' ∨ c = 'E' then []
    else if c = '-' ∨ c = '.' then numMantissa cs
    else c :: numMantissa cs

/-- JavaScript truthiness of a `JSON.parse` result: `null`, `false`, the
empty string and numeric zero are falsy; objects and arrays are always
truthy. -/
def jsTruthy (j : Json) : Bool :=
  match j with
  | Json.null => false
  | Json.bool b => b
  | Json.str s => ¬(s = "")
  | Json.num lex => ¬(numMantissa lex).all (fun c => c = '0')
  | Json.arr _ => true
  | Json.obj _ => true

/-- `fetchUserRoles` of `src/pages/api/auth/[...nextauth].ts` (lines 77-130).
`userId`/`accessToken` are `string | undefined`; the initial
`if (!userId || !accessToken)` guard treats `undefined` and the empty string
as falsy.  `const [, payload] = accessToken.split('.')` takes the second
dot-separated segment; a missing or empty segment fails `if (!payload)`.
A `JSON.parse` failure or a TypeError from `decodedToken.scope` is caught by
the inner `try`/`catch` and yields `[]`; a missing or falsy `scope` claim
yields `[]`; a non-string `scope` yields an empty `scopeArray`.  The three
conditional pushes appear in source order admin, staff, appid_manage_roles. -/
def fetchUserRoles (userId : Option String) (accessToken : Option String) : List Role :=
  match userId, accessToken with
  | some u, some t =>
    if u = "" ∨ t = "" then []
    else
      match (splitChar '.' t.data)[1]? with
      | none => []
      | some payload =>
        if payload = [] then []
        else
          match jsonParse (utf8Decode (b64DecodeChars payload)) with
          | none => []
          | some decodedToken =>
            match jsGetScope decodedToken with
            | Except.error _ => []
            | Except.ok none => []
            | Except.ok (some scopes) =>
              if ¬ jsTruthy scopes then []
              else
                let scopeArray : List String :=
                  match scopes with
                  | Json.str s => (splitChar ' ' s.data).map (fun l => String.mk l)
                  | _ => []
                (if scopeArray.contains "admin" then [adminRole] else []) ++
                  (if scopeArray.contains "staff" then [staffRole] else []) ++
                    (if scopeArray.contains "appid_manage_roles" then [roleManagerRole] else [])
  | _, _ => []

/-- One email entry of an identity provider's user record. -/
structure EmailEntry where
  value : String
  primary : Bool
deriving DecidableEq

/-- Name record inside `idpUserInfo`. -/
structure IdpName where
  givenName : String
  familyName : String
  formatted : String
deriving DecidableEq

/-- `idpUserInfo` of a linked identity. -/
structure IdpUserInfo where
  displayName : String
  active : Bool
  emails : List EmailEntry
  name : IdpName
  status : String
  idpType : String
deriving DecidableEq

/-- A linked identity of the provider profile. -/
structure Identity where
  provider : String
  id : String
  idpUserInfo : Option IdpUserInfo
deriving DecidableEq

/-- The raw provider profile (`IBMAppIDProfile` interface, lines 46-70):
every field may be absent. -/
structure IBMAppIDProfile where
  sub : Option String
  name : Option String
  email : Option String
  email_verified : Option Bool
  given_name : Option String
  family_name : Option String
  roles : Option (List Role)
  identities : Option (List Identity)
deriving DecidableEq

/-- The raw token bundle (`TokenInfo` interface, lines 72-75). -/
structure TokenInfo where
  access_token : Option String
  id_token : Option String
deriving DecidableEq

/-- Rendering of a possibly-undefined string inside a template literal:
JavaScript stringifies the absent value as the text `undefined`. -/
def jsTemplateStr (o : Option String) : String :=
  match o with
  | some s => s
  | none => "undefined"

/-- The record built by the `profile` function (lines 141-148). -/
structure ProfileResult where
  id : Option String
  name : String
  email : Option String
  email_verified : Option Bool
  roles : List Role
  identities : List Identity
deriving DecidableEq

/-- The `profile` function (lines 136-149): roles come from
`fetchUserRoles(profile.sub, tokens.access_token)`; `name` is
`profile.name || given_name + " " + family_name` (the `||` fallback fires on
an absent or empty display name); `email` and `email_verified` are copied
as-is, `identities` defaults to `[]`. -/
def profileFn (profile : IBMAppIDProfile) (tokens : TokenInfo) : ProfileResult :=
  let roles := fetchUserRoles profile.sub tokens.access_token
  { id := profile.sub
    name :=
      match profile.name with
      | some n =>
        if n = "" then jsTemplateStr profile.given_name ++ " " ++ jsTemplateStr profile.family_name
        else n
      | none => jsTemplateStr profile.given_name ++ " " ++ jsTemplateStr profile.family_name
    email := profile.email
    email_verified := profile.email_verified
    roles := roles
    identities :=
      match profile.identities with
      | some l => l
      | none => [] }

/-- `safelyFetchRoles` (lines 132-134). -/
def safelyFetchRoles (profile : IBMAppIDProfile) (accessToken : Option String) : List Role :=
  fetchUserRoles profile.sub accessToken

/-- JavaScript nullish coalescing `a ?? b`. -/
def jsNullish {α : Type} (a b : Option α) : Option α :=
  match a with
  | some x => some x
  | none => b

/-- The slice of the NextAuth account object the `jwt` callback reads. -/
structure Account where
  access_token : Option String
deriving DecidableEq

/-- The enriched `token.user` value (`Session.user` shape declared in the
`next-auth` module augmentation): all fields optional. -/
structure TUser where
  id : Option String
  name : Option String
  email : Option String
  email_verified : Option Bool
  roles : Option (List Role)
  identities : Option (List Identity)
deriving DecidableEq

/-- The durable JWT token record.  `rest` stands for the token's remaining
NextAuth fields, untouched by the callback. -/
structure JwtToken (ρ : Type) where
  user : Option TUser
  accessToken : Option String
  rest : ρ

/-- The `jwt` callback (lines 178-194).  The body runs only under
`if (account && profile)`; it spreads `user` (the `profile` function's
result on sign-in), then overrides `roles` with a fresh
`fetchUserRoles(profile.sub, account.access_token)`, `id` with
`profile.sub`, and `email`/`name` with `profile.email ?? user.email ??
undefined` / `profile.name ?? user.name ?? undefined`; it also stores
`account.access_token`.  Otherwise the token is returned unchanged. -/
def jwtCb {ρ : Type} (token : JwtToken ρ) (account : Option Account)
    (profile : Option IBMAppIDProfile) (user : ProfileResult) : JwtToken ρ :=
  match account, profile with
  | some a, some p =>
    { token with
      user := some
        { id := p.sub
          name := jsNullish p.name (some user.name)
          email := jsNullish p.email user.email
          email_verified := user.email_verified
          roles := some (fetchUserRoles p.sub a.access_token)
          identities := some user.identities }
      accessToken := a.access_token }
  | _, _ => token

/-- The session object.  `rest` stands for the session's remaining NextAuth
fields (e.g. `expires`), untouched by the callback. -/
structure SessionObj (σ : Type) where
  user : Option TUser
  accessToken : Option String
  rest : σ

/-- The `session` callback (lines 195-201): `if (token.user)` copies the
token's user onto the session, leaving the session's own user in place when
the token carries none; `session.accessToken = token.accessToken` always. -/
def sessionCb {σ ρ : Type} (session : SessionObj σ) (token : JwtToken ρ) : SessionObj σ :=
  { session with
    user :=
      match token.user with
      | some u => some u
      | none => session.user
    accessToken := token.accessToken }

/-- Result of a `getServerSideProps` loader: either a redirect directive or
page props. -/
inductive GsspResult (π : Type) where
  | redirect (destination : String) (permanent : Bool)
  | props (data : π)
deriving DecidableEq

/-- A request context; `session` models what `getSession(context)` resolves
for it, `rest` the remaining request data the loader may consume. -/
structure GsspContext (σ κ : Type) where
  session : Option (SessionObj σ)
  rest : κ

/-- `session.user?.roles?.map(role => role.name) || []` (part_001 line 35):
an absent user or absent roles list falls back to the empty list. -/
def userRoleNames {σ : Type} (session : SessionObj σ) : List String :=
  match session.user with
  | none => []
  | some u =>
    match u.roles with
    | none => []
    | some rs => rs.map (fun r => r.name)

/-- `withAuth` of `src/unnamed/part_001` (lines 17-50): no session redirects
to `/api/auth/signin`; with a session and a non-empty `requiredRoles`, a
failing `requiredRoles.some(role => userRoles.includes(role))` check
redirects to `/unauthorized`; otherwise the wrapped loader runs. -/
def withAuth {σ κ π : Type} (gssp : GsspContext σ κ → GsspResult π)
    (requiredRoles : Option (List String)) : GsspContext σ κ → GsspResult π :=
  fun context =>
    match context.session with
    | none => GsspResult.redirect "/api/auth/signin" false
    | some session =>
      match requiredRoles with
      | some rs =>
        if rs.length > 0 then
          let userRoles := userRoleNames session
          let hasRequiredRole := rs.any (fun role => userRoles.contains role)
          if ¬ hasRequiredRole then GsspResult.redirect "/unauthorized" false
          else gssp context
        else gssp context
      | none => gssp context

/-- Capability gate `hasRole`: the pattern
`session?.user?.roles?.some(role => role.name === roleName)` of
`src/components/Layout.tsx` lines 26-27, coerced to a boolean (the optional
chain's `undefined` is falsy). -/
def hasRole {σ : Type} (session : Option (SessionObj σ)) (roleName : String) : Bool :=
  match session with
  | none => false
  | some s =>
    match s.user with
    | none => false
    | some u =>
      match u.roles with
      | none => false
      | some rs => rs.any (fun role => role.name = roleName)

/-- Capability gate `hasAnyRole`: the check of part_001 lines 35-36
(`requiredRoles.some(role => userRoles.includes(role))` over
`session?.user?.roles?.map(role => role.name) || []`), over an optional
session. -/
def hasAnyRole {σ : Type} (session : Option (SessionObj σ)) (roleNames : List String) : Bool :=
  let userRoles :=
    match session with
    | none => []
    | some s => userRoleNames s
  roleNames.any (fun role => userRoles.contains role)

/-- The spec's role-scope lookup table (§4.1): scope name to produced role,
in the source's check order. -/
def roleScopeTable : List (String × Role) :=
  [("admin", adminRole), ("staff", staffRole), ("appid_manage_roles", roleManagerRole)]

/-- The scope tokens of a scope claim string: the `scopeArray` computed by
`fetchUserRoles` from a string-valued `scope` (split on single spaces). -/
def scopeToks (sc : String) : List String :=
  (splitChar ' ' sc.data).map (fun l => String.mk l)

/-- A raw profile with every field absent. -/
def emptyProfile : IBMAppIDProfile := ⟨none, none, none, none, none, none, none, none⟩

/-- A raw profile with subject `u1`, no display name, given name `A`,
family name `B`. -/
def profileU1 : IBMAppIDProfile := ⟨some "u1", none, none, none, some "A", some "B", none, none⟩

/-- A token bundle whose access token carries the `admin` scope. -/
def sampleTokens : TokenInfo := ⟨some "h.eyJzY29wZSI6ImFkbWluIn0.s", none⟩

/-- An account bundle carrying the same access token. -/
def sampleAccount : Account := ⟨some "h.eyJzY29wZSI6ImFkbWluIn0.s"⟩

/-- A normalized profile-result fixture. -/
def sampleProfRes : ProfileResult := ⟨some "u1", "A B", none, none, [], []⟩

/-- An enriched user whose roles list is `[staffRole]`. -/
def sampleTUserStaff : TUser := ⟨some "u1", some "S", none, none, some [staffRole], some []⟩

/-- A session holding the staff user. -/
def sampleSessionStaff : SessionObj Unit := ⟨some sampleTUserStaff, some "tok", ()⟩

/-- A durable token record fixture with no user. -/
def sampleJwtEmpty : JwtToken Nat := ⟨none, none, 42⟩

/-- A durable token record fixture carrying the staff user. -/
def sampleJwtStaff : JwtToken Nat := ⟨some sampleTUserStaff, some "tok", 7⟩

/-- A session fixture with no user. -/
def sampleSessionEmpty : SessionObj Unit := ⟨none, none, ()⟩

/-- A request context resolving the staff session. -/
def sampleCtxStaff : GsspContext Unit Unit := ⟨some sampleSessionStaff, ()⟩

/-- A request context for which no session resolves. -/
def sampleCtxNoSession : GsspContext Unit Unit := ⟨none, ()⟩

/-- A page-data loader fixture. -/
def loaderA : GsspContext Unit Unit → GsspResult Nat := fun _ => GsspResult.props 7

/-- A second page-data loader fixture, distinguishable from `loaderA`. -/
def loaderB : GsspContext Unit Unit → GsspResult Nat := fun _ => GsspResult.props 8

/-- C7: when the `jwt` callback receives no fresh account/profile data the
durable token record is returned unchanged in every field; when it does
receive them, the rebuilt user — its roles in particular — is independent of
the previous token, and the roles are wholly replaced by
`fetchUserRoles(profile.sub, account.access_token)`. -/
theorem jwtCb_frame {ρ : Type} (t t2 : JwtToken ρ) (a : Option Account)
    (p : Option IBMAppIDProfile) (u : ProfileResult) :
    ((a = none ∨ p = none) → jwtCb t a p u = t) ∧
    (∀ (a0 : Account) (p0 : IBMAppIDProfile),
      (jwtCb t (some a0) (some p0) u).user = (jwtCb t2 (some a0) (some p0) u).user) ∧
    (∀ (a0 : Account) (p0 : IBMAppIDProfile),
      ((jwtCb t (some a0) (some p0) u).user).map (fun x => x.roles) =
        some (some (fetchUserRoles p0.sub a0.access_token))) := by
  refine ⟨?_, ?_, ?_⟩
  · rintro (h | h) <;> subst h
    · cases p <;> rfl
    · cases a <;> rfl
  · intro a0 p0
    rfl
  · intro a0 p0
    rfl

/-- Witness for C7 at concrete inputs. -/
theorem jwtCb_frame_witness :
    jwtCb sampleJwtEmpty none (some profileU1) sampleProfRes = sampleJwtEmpty ∧
    (jwtCb sampleJwtEmpty (some sampleAccount) (some profileU1) sampleProfRes).user =
      (jwtCb sampleJwtStaff (some sampleAccount) (some profileU1) sampleProfRes).user := by
  exact ⟨(jwtCb_frame sampleJwtEmpty sampleJwtEmpty none (some profileU1) sampleProfRes).1
      (Or.inl rfl),
    (jwtCb_frame sampleJwtEmpty sampleJwtStaff (some sampleAccount) (some profileU1)
      sampleProfRes).2.1 sampleAccount profileU1⟩

/-- C8: on a durable record that carries a user, the `session` callback is a
pure projection — the materialized session's user and access token are the
record's, the view does not depend on the incoming session object, and
re-running the callback on its own output changes nothing. -/
theorem sessionCb_projection {σ ρ : Type} (s s2 : SessionObj σ) (t : JwtToken ρ)
    (u : TUser) (h : t.user = some u) :
    (sessionCb s t).user = some u ∧
    (sessionCb s t).accessToken = t.accessToken ∧
    ((sessionCb s t).user, (sessionCb s t).accessToken) =
      ((sessionCb s2 t).user, (sessionCb s2 t).accessToken) ∧
    sessionCb (sessionCb s t) t = sessionCb s t := by
  refine ⟨?_, ?_, ?_, ?_⟩ <;> simp [sessionCb, h]

/-- Witness for C8 at concrete inputs. -/
theorem sessionCb_projection_witness :
    (sessionCb sampleSessionEmpty sampleJwtStaff).user = some sampleTUserStaff ∧
    (sessionCb sampleSessionEmpty sampleJwtStaff).accessToken = sampleJwtStaff.accessToken := by
  exact ⟨(sessionCb_projection sampleSessionEmpty sampleSessionEmpty sampleJwtStaff
      sampleTUserStaff rfl).1,
    (sessionCb_projection sampleSessionEmpty sampleSessionEmpty sampleJwtStaff
      sampleTUserStaff rfl).2.1⟩

/-- C9: the capability-gate predicates are total boolean functions; an absent
session, an absent user or an absent roles list yields `false`, and a session
whose roles include `staff` satisfies `hasAnyRole` of `["admin", "staff"]`. -/
theorem capability_gates_total (σ : Type) :
    (∀ r : String, hasRole (none : Option (SessionObj σ)) r = false) ∧
    (∀ rs : List String, hasAnyRole (none : Option (SessionObj σ)) rs = false) ∧
    (∀ (s : SessionObj σ) (r : String) (rs : List String), s.user = none →
      hasRole (some s) r = false ∧ hasAnyRole (some s) rs = false) ∧
    (∀ (s : SessionObj σ) (u : TUser) (r : String) (rs : List String),
      s.user = some u → u.roles = none →
      hasRole (some s) r = false ∧ hasAnyRole (some s) rs = false) ∧
    (∀ (s : SessionObj σ) (u : TUser) (roles : List Role),
      s.user = some u → u.roles = some roles →
      (∃ role ∈ roles, role.name = "staff") →
      hasAnyRole (some s) ["admin", "staff"] = true) := by
  refine ⟨fun r => rfl, fun rs => by simp [hasAnyRole, List.any_eq_false], ?_, ?_, ?_⟩
  · intro s r rs h
    constructor <;> simp [hasRole, hasAnyRole, userRoleNames, h]
  · intro s u r rs h h2
    constructor <;> simp [hasRole, hasAnyRole, userRoleNames, h, h2]
  · intro s u roles h h2 hstaff
    obtain ⟨role, hmem, hname⟩ := hstaff
    simp only [hasAnyRole, userRoleNames, h, h2, List.any_eq_true]
    refine ⟨"staff", by simp, ?_⟩
    simp only [List.contains_eq_any_beq, List.any_eq_true]
    exact ⟨role.name, List.mem_map_of_mem _ hmem, by simp [hname]⟩

/-- Witness for C9 at concrete inputs. -/
theorem capability_gates_total_witness :
    hasRole (none : Option (SessionObj Unit)) "admin" = false ∧
    hasAnyRole (some sampleSessionStaff) ["admin", "staff"] = true := by
  exact ⟨(capability_gates_total Unit).1 "admin",
    (capability_gates_total Unit).2.2.2.2 sampleSessionStaff sampleTUserStaff [staffRole]
      rfl rfl ⟨staffRole, by decide, rfl⟩⟩

/-- C10: with a session present, an explicitly given empty required-roles
list skips the role check and delegates to the loader, and on every context
the guard with an empty list behaves identically to the guard with
`requiredRoles` omitted. -/
theorem withAuth_empty_roles {σ κ π : Type} (gssp : GsspContext σ κ → GsspResult π) :
    (∀ (ctx : GsspContext σ κ) (s : SessionObj σ), ctx.session = some s →
      withAuth gssp (some []) ctx = gssp ctx) ∧
    (∀ ctx : GsspContext σ κ, withAuth gssp (some []) ctx = withAuth gssp none ctx) := by
  constructor
  · intro ctx s h
    simp [withAuth, h]
  · intro ctx
    cases h : ctx.session <;> simp [withAuth, h]

/-- Witness for C10 at concrete inputs. -/
theorem withAuth_empty_roles_witness :
    withAuth loaderA (some []) sampleCtxStaff = loaderA sampleCtxStaff := by
  exact (withAuth_empty_roles loaderA).1 sampleCtxStaff sampleSessionStaff rfl

/-- Reduction of the guard when a session resolves and the required-role
list is non-empty: the outcome is decided by whether every required role is
missing from the session's role names. -/
theorem withAuth_check_reduce {σ κ π : Type} (gssp : GsspContext σ κ → GsspResult π)
    (l : List String) (ctx : GsspContext σ κ) (s : SessionObj σ)
    (hs : ctx.session = some s) (hlen : l.length > 0) :
    withAuth gssp (some l) ctx =
      if ∀ x ∈ l, x ∉ userRoleNames s then GsspResult.redirect "/unauthorized" false
      else gssp ctx := by
  simp [withAuth, hs, hlen]

/-- C1: for every loader, optional non-empty required-role set and request
context — no session: the wrapped loader yields the sign-in redirect and is
independent of the loader body; session present but required roles disjoint
from the session's role names: the unauthorized redirect, again independent
of the loader body; otherwise: exactly the loader's own result. -/
theorem withAuth_guard_spec {σ κ π : Type} (gssp gssp2 : GsspContext σ κ → GsspResult π)
    (rr : Option (List String)) (ctx : GsspContext σ κ)
    (hrr : rr = none ∨ ∃ l, rr = some l ∧ l ≠ []) :
    (ctx.session = none →
      withAuth gssp rr ctx = GsspResult.redirect "/api/auth/signin" false ∧
      withAuth gssp rr ctx = withAuth gssp2 rr ctx) ∧
    (∀ (s : SessionObj σ) (l : List String), ctx.session = some s → rr = some l →
      (∀ r ∈ l, r ∉ userRoleNames s) →
      withAuth gssp rr ctx = GsspResult.redirect "/unauthorized" false ∧
      withAuth gssp rr ctx = withAuth gssp2 rr ctx) ∧
    (∀ s : SessionObj σ, ctx.session = some s →
      (rr = none ∨ ∃ l r, rr = some l ∧ r ∈ l ∧ r ∈ userRoleNames s) →
      withAuth gssp rr ctx = gssp ctx) := by
  refine ⟨?_, ?_, ?_⟩
  · intro h
    constructor <;> simp [withAuth, h]
  · intro s l hs hl hdisj
    subst hl
    rcases hrr with h | ⟨l2, hl2, hne⟩
    · simp at h
    have hne2 : l ≠ [] := by
      cases hl2
      exact hne
    have hlen : l.length > 0 := List.length_pos.mpr hne2
    rw [withAuth_check_reduce gssp l ctx s hs hlen, if_pos hdisj,
      withAuth_check_reduce gssp2 l ctx s hs hlen, if_pos hdisj]
    exact ⟨rfl, rfl⟩
  · intro s hs hcase
    rcases hcase with h | ⟨l, r, hl, hrl, hrn⟩
    · subst h
      simp [withAuth, hs]
    · subst hl
      have hlen : l.length > 0 := by
        refine List.length_pos.mpr ?_
        rintro rfl
        cases hrl
      rw [withAuth_check_reduce gssp l ctx s hs hlen,
        if_neg (fun hd => hd r hrl hrn)]
/-- Witness for C1 at concrete inputs: the three outcomes of the guard. -/
theorem withAuth_guard_spec_witness :
    withAuth loaderA (some ["admin", "staff"]) sampleCtxStaff = loaderA sampleCtxStaff ∧
    withAuth loaderA none sampleCtxNoSession = GsspResult.redirect "/api/auth/signin" false ∧
    withAuth loaderA (some ["admin"]) sampleCtxStaff = GsspResult.redirect "/unauthorized" false := by
  refine ⟨?_, ?_, ?_⟩
  · exact (withAuth_guard_spec loaderA loaderB (some ["admin", "staff"]) sampleCtxStaff
      (Or.inr ⟨["admin", "staff"], rfl, by decide⟩)).2.2 sampleSessionStaff rfl
      (Or.inr ⟨["admin", "staff"], "staff", rfl, by decide, by decide⟩)
  · exact ((withAuth_guard_spec loaderA loaderB none sampleCtxNoSession (Or.inl rfl)).1 rfl).1
  · exact ((withAuth_guard_spec loaderA loaderB (some ["admin"]) sampleCtxStaff
      (Or.inr ⟨["admin"], rfl, by decide⟩)).2.1 sampleSessionStaff ["admin"] rfl rfl
      (by decide)).1

/-- C2 counterexample: on a raw profile with no subject the normalizer does
not fail — it returns a canonical record whose `id` is absent (and whose
roles are empty, the role fetch having failed softly), refuting the claimed
`MissingSubjectError`. -/
theorem profile_missing_subject_cex :
    profileFn emptyProfile sampleTokens =
      { id := none, name := "undefined undefined", email := none, email_verified := none,
        roles := [], identities := [] } ∧
    (profileFn emptyProfile sampleTokens).id = none := ⟨rfl, rfl⟩

/-- C2 amended: with an absent subject the normalizer still totally
succeeds, producing a record with an absent `id` and an empty role list. -/
theorem profileFn_missing_subject_soft (p : IBMAppIDProfile) (tk : TokenInfo)
    (h : p.sub = none) :
    (profileFn p tk).id = none ∧ (profileFn p tk).roles = [] := by
  constructor
  · simp [profileFn, h]
  · cases ht : tk.access_token <;> simp [profileFn, fetchUserRoles, h, ht]

/-- Witness for the amended C2 at concrete inputs. -/
theorem profileFn_missing_subject_soft_witness :
    (profileFn emptyProfile sampleTokens).id = none ∧
    (profileFn emptyProfile sampleTokens).roles = [] :=
  profileFn_missing_subject_soft emptyProfile sampleTokens rfl

/-- C6 counterexample: with subject `u1`, given name `A`, family name `B`
and everything else absent, the normalized name is `A B`, but `email` and
`email_verified` are left absent — not defaulted to the empty string and
`false`. -/
theorem profile_defaults_cex :
    (profileFn profileU1 sampleTokens).name = "A B" ∧
    (profileFn profileU1 sampleTokens).email ≠ some "" ∧
    (profileFn profileU1 sampleTokens).email_verified ≠ some false := by
  refine ⟨rfl, ?_, ?_⟩ <;> decide

/-- C6 amended: with a subject present, no display name and both name parts
present, the normalized name is `given_name ++ " " ++ family_name`;
`identities` defaults to the empty list, while `email` and `email_verified`
are copied through unchanged (absent stays absent). -/
theorem profileFn_name_fallback (p : IBMAppIDProfile) (tk : TokenInfo) (s g f : String)
    (_hs : p.sub = some s) (hn : p.name = none) (hg : p.given_name = some g)
    (hf : p.family_name = some f) :
    (profileFn p tk).name = g ++ " " ++ f ∧
    (profileFn p tk).email = p.email ∧
    (profileFn p tk).email_verified = p.email_verified ∧
    (p.identities = none → (profileFn p tk).identities = []) := by
  refine ⟨?_, rfl, rfl, ?_⟩
  · simp [profileFn, hn, hg, hf, jsTemplateStr]
  · intro h
    simp [profileFn, h]

/-- Witness for the amended C6 at concrete inputs. -/
theorem profileFn_name_fallback_witness :
    (profileFn profileU1 sampleTokens).name = "A" ++ " " ++ "B" ∧
    (profileFn profileU1 sampleTokens).email = profileU1.email ∧
    (profileFn profileU1 sampleTokens).email_verified = profileU1.email_verified ∧
    (profileU1.identities = none → (profileFn profileU1 sampleTokens).identities = []) :=
  profileFn_name_fallback profileU1 sampleTokens "u1" "A" "B" rfl rfl rfl rfl

/-- C3 counterexample: a token with only two dot-separated parts (fewer than
the three the claim requires) whose second segment decodes to
`{"scope":"admin"}` yields the admin role, not the empty set; and a middle
segment that is not valid base64url (it starts with `*`, which Node's
lenient decoder ignores) also yields the admin role. -/
theorem fetchUserRoles_malformed_cex :
    fetchUserRoles (some "user-1") (some "x.eyJzY29wZSI6ImFkbWluIn0") = [adminRole] ∧
    fetchUserRoles (some "user-1") (some "h.*eyJzY29wZSI6ImFkbWluIn0.s") = [adminRole] ∧
    ([adminRole] : List Role) ≠ [] := by
  exact ⟨rfl, rfl, by decide⟩

/-- C3 amended: `fetchUserRoles` is a total function (every exception path is
caught), and it returns the empty role set whenever the token has no second
dot-separated segment, or that segment is empty, or the lenient
base64-decode-then-parse of the segment fails, or the parsed payload gives no
truthy `scope` member (including the payload `null`, whose property access
throws and is caught). -/
theorem fetchUserRoles_soft_fail (uid : Option String) (t : String)
    (h : (splitChar '.' t.data)[1]? = none ∨
         (splitChar '.' t.data)[1]? = some [] ∨
         (∃ payload, (splitChar '.' t.data)[1]? = some payload ∧
           jsonParse (utf8Decode (b64DecodeChars payload)) = none) ∨
         (∃ payload j, (splitChar '.' t.data)[1]? = some payload ∧
           jsonParse (utf8Decode (b64DecodeChars payload)) = some j ∧
           (jsGetScope j = Except.error () ∨ jsGetScope j = Except.ok none ∨
             ∃ sc, jsGetScope j = Except.ok (some sc) ∧ jsTruthy sc = false))) :
    fetchUserRoles uid (some t) = [] := by
  cases uid with
  | none => rfl
  | some u =>
    by_cases hu : u = ""
    · simp [fetchUserRoles, hu]
    by_cases ht : t = ""
    · simp [fetchUserRoles, hu, ht]
    rcases h with h | h | ⟨payload, hp, hj⟩ | ⟨payload, j, hp, hj, hsc⟩
    · simp [fetchUserRoles, hu, ht, h]
    · simp [fetchUserRoles, hu, ht, h]
    · by_cases hpe : payload = [] <;> simp [fetchUserRoles, hu, ht, hp, hpe, hj]
    · rcases hsc with hsc | hsc | ⟨sc, hsc, htr⟩
      · by_cases hpe : payload = [] <;> simp [fetchUserRoles, hu, ht, hp, hpe, hj, hsc]
      · by_cases hpe : payload = [] <;> simp [fetchUserRoles, hu, ht, hp, hpe, hj, hsc]
      · by_cases hpe : payload = [] <;> simp [fetchUserRoles, hu, ht, hp, hpe, hj, hsc, htr]

/-- Witness for the amended C3: a well-shaped three-part token whose payload
decodes to the text `not json` fails softly to the empty role set. -/
theorem fetchUserRoles_soft_fail_witness :
    fetchUserRoles (some "user-1") (some "h.bm90IGpzb24.s") = [] := by
  exact fetchUserRoles_soft_fail (some "user-1") "h.bm90IGpzb24.s"
    (Or.inr (Or.inr (Or.inl ⟨"bm90IGpzb24".data, rfl, rfl⟩)))

/-- C5 counterexample: with the same access token, an absent `userId` gives
the empty role set while a present one gives the admin role — the function
is not a function of the token string alone. -/
theorem fetchUserRoles_userid_dependence_cex :
    fetchUserRoles none (some "x.eyJzY29wZSI6ImFkbWluIn0") = [] ∧
    fetchUserRoles (some "u") (some "x.eyJzY29wZSI6ImFkbWluIn0") = [adminRole] ∧
    fetchUserRoles none (some "x.eyJzY29wZSI6ImFkbWluIn0") ≠
      fetchUserRoles (some "u") (some "x.eyJzY29wZSI6ImFkbWluIn0") := by
  refine ⟨rfl, rfl, ?_⟩
  decide

/-- C5 amended: `fetchUserRoles` is a deterministic pure function of its two
inputs, and once `userId` is truthy (present and non-empty) the result
depends on the access token alone. -/
theorem fetchUserRoles_token_determined (u1 u2 : String) (t : Option String)
    (h1 : ¬ u1 = "") (h2 : ¬ u2 = "") :
    fetchUserRoles (some u1) t = fetchUserRoles (some u2) t := by
  cases t with
  | none => rfl
  | some s =>
    by_cases hs : s = "" <;> simp [fetchUserRoles, h1, h2, hs]

/-- Witness for the amended C5 at concrete inputs. -/
theorem fetchUserRoles_token_determined_witness :
    fetchUserRoles (some "alice") (some "x.eyJzY29wZSI6ImFkbWluIn0") =
      fetchUserRoles (some "bob") (some "x.eyJzY29wZSI6ImFkbWluIn0") := by
  exact fetchUserRoles_token_determined "alice" "bob" (some "x.eyJzY29wZSI6ImFkbWluIn0")
    (by decide) (by decide)

/-- C4: whenever the guard inputs are truthy and the token's second segment
decodes and parses to an object whose `scope` member is a non-empty string,
the derived roles are exactly the data-driven lookup of the scope tokens in
the fixed role table; in particular a scope carrying `admin` and `staff`
(in any order, duplicates and unrecognized scopes tolerated) yields exactly
`[adminRole, staffRole]`. -/
theorem fetchUserRoles_scope_mapping (u t : String) (payload : List Char)
    (fields : List (String × Json)) (sc : String)
    (hu : ¬ u = "")
    (hpl : (splitChar '.' t.data)[1]? = some payload)
    (hjson : jsonParse (utf8Decode (b64DecodeChars payload)) = some (Json.obj fields))
    (hscope : lookupLast fields "scope" = some (Json.str sc))
    (hne : ¬ sc = "") :
    fetchUserRoles (some u) (some t) =
      roleScopeTable.filterMap
        (fun pr => if (scopeToks sc).contains pr.1 then some pr.2 else none) ∧
    ("admin" ∈ scopeToks sc → "staff" ∈ scopeToks sc →
      "appid_manage_roles" ∉ scopeToks sc →
      fetchUserRoles (some u) (some t) = [adminRole, staffRole]) := by
  have ht : ¬ t = "" := by
    intro h
    rw [h] at hpl
    simp [splitChar] at hpl
  have hpe : ¬ payload = [] := by
    intro h
    rw [h] at hjson
    rw [show jsonParse (utf8Decode (b64DecodeChars ([] : List Char))) = none from rfl] at hjson
    exact Option.noConfusion hjson
  have hreduce : fetchUserRoles (some u) (some t) =
      (if (scopeToks sc).contains "admin" then [adminRole] else []) ++
        (if (scopeToks sc).contains "staff" then [staffRole] else []) ++
          (if (scopeToks sc).contains "appid_manage_roles" then [roleManagerRole] else []) := by
    simp [fetchUserRoles, hu, ht, hpl, hpe, hjson, jsGetScope, hscope, jsTruthy, hne, scopeToks]
  constructor
  · rw [hreduce]
    by_cases h1 : "admin" ∈ scopeToks sc <;>
      by_cases h2 : "staff" ∈ scopeToks sc <;>
        by_cases h3 : "appid_manage_roles" ∈ scopeToks sc <;>
          simp [roleScopeTable, List.filterMap_cons, h1, h2, h3]
  · intro ha hsf hnm
    rw [hreduce]
    have h1 : (scopeToks sc).contains "admin" = true := by
      simpa using ha
    have h2 : (scopeToks sc).contains "staff" = true := by
      simpa using hsf
    have h3 : (scopeToks sc).contains "appid_manage_roles" = false := by
      simpa using hnm
    rw [h1, h2, h3]
    simp

/-- Witness for C4: a three-part token whose payload is
`{"scope":"staff admin openid"}` yields exactly the admin and staff roles. -/
theorem fetchUserRoles_scope_mapping_witness :
    fetchUserRoles (some "u") (some "h.eyJzY29wZSI6InN0YWZmIGFkbWluIG9wZW5pZCJ9.s") =
      [adminRole, staffRole] := by
  exact (fetchUserRoles_scope_mapping "u" "h.eyJzY29wZSI6InN0YWZmIGFkbWluIG9wZW5pZCJ9.s"
    "eyJzY29wZSI6InN0YWZmIGFkbWluIG9wZW5pZCJ9".data
    [("scope", Json.str "staff admin openid")] "staff admin openid"
    (by decide) rfl rfl rfl (by decide)).2 (by decide) (by decide) (by decide)
